import Mathlib

/-!
A shallow embedding of the WebSocket server's connection registry,
subscription routing, broadcast fan-out, heartbeat monitoring and metrics
window, translated from `src/websocket/handlers.js`, `src/server.js` and the
WebSocket setup module, together with theorems settling the specification's
claims about them.
-/

namespace WSProof

/-- One connected peer as the server sees it: the fields the connection
handler attaches to each `ws` object (id, subscriptions, isAlive,
readyState), plus the send behaviour observed during a fan-out pass:
`sendFails` says whether `client.send` throws for this pass, and
`readyStateAfterFail` is the `readyState` the catch block observes after a
failed send (the socket may have transitioned while the send was failing). -/
structure Client where
  id : String
  subscriptions : List String
  isAlive : Bool
  readyState : Nat
  sendFails : Bool
  readyStateAfterFail : Nat
deriving Repr, DecidableEq

/-- The server's client map (`serverInstance.clients`, a JS `Map` from client
id to `ws`), modelled as an association list in insertion order. -/
abbrev Registry := List (String × Client)

/-- `Map.set`: replace the value under an existing key, else append. -/
def mapSet {α : Type} (m : List (String × α)) (k : String) (v : α) :
    List (String × α) :=
  if m.any (fun p => p.1 == k) then
    m.map (fun p => if p.1 == k then (k, v) else p)
  else
    m ++ [(k, v)]

/-- `Map.delete`: drop the entry under a key; absent keys are untouched. -/
def mapDelete {α : Type} (m : List (String × α)) (k : String) :
    List (String × α) :=
  m.filter (fun p => !(p.1 == k))

/-- `Map.get`: the value under a key, if present (first occurrence). -/
def mapLookup {α : Type} (m : List (String × α)) (k : String) : Option α :=
  (m.find? (fun p => p.1 == k)).map Prod.snd

/-- `MAX_CONNECTIONS` from the WebSocket setup module. -/
def MAX_CONNECTIONS : Nat := 1000

/-- The capacity gate of the connection handler: when the current client
count has reached `MAX_CONNECTIONS` the connection is closed with
"Server at capacity" and nothing is stored; otherwise the new client is
stored in the map under its id. Returns the new registry and whether the
connection was accepted. -/
def connectClient (m : Registry) (c : Client) : Registry × Bool :=
  if MAX_CONNECTIONS ≤ m.length then
    (m, false)
  else
    (mapSet m c.id c, true)

/-- The registry operations a connection's lifecycle can trigger:
acceptance of a new connection, and removal on close/error/reap. -/
inductive RegOp where
  | connect (c : Client)
  | disconnect (id : String)

/-- Apply one registry operation. -/
def applyOp (m : Registry) : RegOp → Registry
  | .connect c => (connectClient m c).1
  | .disconnect id => mapDelete m id

/-- Run a sequence of registry operations from the empty registry. -/
def runOps (ops : List RegOp) : Registry :=
  ops.foldl applyOp []

theorem mapSet_length_le {α : Type} (m : List (String × α)) (k : String)
    (v : α) : (mapSet m k v).length ≤ m.length + 1 := by
  unfold mapSet
  split
  · simp
  · simp

theorem applyOp_length_le (m : Registry) (op : RegOp)
    (h : m.length ≤ MAX_CONNECTIONS) :
    (applyOp m op).length ≤ MAX_CONNECTIONS := by
  cases op with
  | connect c =>
      simp only [applyOp, connectClient]
      by_cases hc : MAX_CONNECTIONS ≤ m.length
      · rw [if_pos hc]
        exact h
      · rw [if_neg hc]
        push_neg at hc
        exact le_trans (mapSet_length_le m c.id c) hc
  | disconnect id =>
      simp only [applyOp, mapDelete]
      exact le_trans (List.length_filter_le _ _) h

theorem foldl_applyOp_length (ops : List RegOp) :
    ∀ m : Registry, m.length ≤ MAX_CONNECTIONS →
      (ops.foldl applyOp m).length ≤ MAX_CONNECTIONS := by
  induction ops with
  | nil => intro m h; simpa using h
  | cons op rest ih =>
      intro m h
      exact ih (applyOp m op) (applyOp_length_le m op h)

/-- C1: for every sequence of accept and remove operations the registry's
size never exceeds `MAX_CONNECTIONS` (1000), and an acceptance attempted
while the size equals `MAX_CONNECTIONS` is refused and inserts nothing,
leaving the registry map unchanged. -/
theorem registry_capacity_invariant :
    (∀ ops : List RegOp, (runOps ops).length ≤ MAX_CONNECTIONS) ∧
    (∀ (m : Registry) (c : Client), m.length = MAX_CONNECTIONS →
      connectClient m c = (m, false)) := by
  constructor
  · intro ops
    exact foldl_applyOp_length ops [] (by simp)
  · intro m c hfull
    unfold connectClient
    rw [if_pos (le_of_eq hfull.symm)]

/-- A client record used for concrete evaluations. -/
def plainClient (i : String) : Client :=
  { id := i, subscriptions := [], isAlive := true, readyState := 1,
    sendFails := false, readyStateAfterFail := 1 }

/-- A registry holding exactly `MAX_CONNECTIONS` clients. -/
def fullRegistry : Registry :=
  (List.range MAX_CONNECTIONS).map (fun n => (toString n, plainClient (toString n)))

/-- Concrete instance of `registry_capacity_invariant`: an acceptance at a
full registry of 1000 clients is refused and changes nothing. -/
theorem registry_capacity_witness :
    connectClient fullRegistry (plainClient "extra") = (fullRegistry, false) :=
  registry_capacity_invariant.2 fullRegistry (plainClient "extra")
    (by simp [fullRegistry])

/-- Outcome of one deferred fan-out pass: the ids that were sent the
payload, and the ids collected in `clientsToRemove` during the pass. -/
structure FanoutResult where
  sent : List String
  toRemove : List String
deriving Repr, DecidableEq

/-- The chat fan-out pass of `handleChatMessage`: iterate a copy of the
client map; skip the sender; for an open client (`readyState === 1`) send
only if it has explicitly subscribed to `chat` (empty subscriptions receive
nothing); a throwing send is caught and the client is pushed onto
`clientsToRemove` only if its `readyState` is observed `!== 1` in the catch
block; a non-open client is pushed onto `clientsToRemove`. -/
def chatFanoutPass (senderId : String) : Registry → FanoutResult
  | [] => { sent := [], toRemove := [] }
  | (clientId, client) :: rest =>
    let r := chatFanoutPass senderId rest
    if clientId = senderId then r
    else if client.readyState = 1 then
      if 0 < client.subscriptions.length then
        if "chat" ∈ client.subscriptions then
          if client.sendFails then
            if client.readyStateAfterFail ≠ 1 then
              { sent := r.sent, toRemove := clientId :: r.toRemove }
            else r
          else { sent := clientId :: r.sent, toRemove := r.toRemove }
        else r
      else r
    else { sent := r.sent, toRemove := clientId :: r.toRemove }

/-- The condition under which one fan-out pass sends the payload to an
entry of the snapshot, read off the branch structure of the pass. -/
def sentB (senderId : String) (p : String × Client) : Bool :=
  !(p.1 == senderId) && (p.2.readyState == 1) &&
    decide (0 < p.2.subscriptions.length) &&
    decide ("chat" ∈ p.2.subscriptions) && !p.2.sendFails

/-- The condition under which one fan-out pass marks an entry of the
snapshot for removal. -/
def removeB (senderId : String) (p : String × Client) : Bool :=
  !(p.1 == senderId) &&
    (!(p.2.readyState == 1) ||
      ((p.2.readyState == 1) && decide (0 < p.2.subscriptions.length) &&
        decide ("chat" ∈ p.2.subscriptions) && p.2.sendFails &&
        !(p.2.readyStateAfterFail == 1)))

theorem chatFanoutPass_eq (senderId : String) (m : Registry) :
    chatFanoutPass senderId m =
      { sent := (m.filter (sentB senderId)).map Prod.fst,
        toRemove := (m.filter (removeB senderId)).map Prod.fst } := by
  induction m with
  | nil => rfl
  | cons p rest ih =>
      obtain ⟨cid, c⟩ := p
      by_cases h1 : cid = senderId
      · simp [chatFanoutPass, ih, List.filter_cons, sentB, removeB, h1]
      · by_cases h2 : c.readyState = 1
        · by_cases h3 : 0 < c.subscriptions.length
          · by_cases h4 : "chat" ∈ c.subscriptions
            · by_cases h5 : c.sendFails
              · by_cases h6 : c.readyStateAfterFail = 1
                · simp [chatFanoutPass, ih, List.filter_cons, sentB, removeB,
                    h1, h2, h3, h4, h5, h6]
                · simp [chatFanoutPass, ih, List.filter_cons, sentB, removeB,
                    h1, h2, h3, h4, h5, h6]
              · simp [chatFanoutPass, ih, List.filter_cons, sentB, removeB,
                  h1, h2, h3, h4, h5]
            · simp [chatFanoutPass, ih, List.filter_cons, sentB, removeB,
                h1, h2, h3, h4]
          · simp [chatFanoutPass, ih, List.filter_cons, sentB, removeB,
              h1, h2, h3]
        · simp [chatFanoutPass, ih, List.filter_cons, sentB, removeB, h1, h2]

theorem mem_sent_iff (senderId cid : String) (m : Registry) :
    cid ∈ (chatFanoutPass senderId m).sent ↔
      ∃ c : Client, (cid, c) ∈ m ∧ sentB senderId (cid, c) = true := by
  rw [chatFanoutPass_eq]
  simp only [List.mem_map, List.mem_filter]
  constructor
  · rintro ⟨⟨a, c⟩, ⟨hm, hb⟩, rfl⟩
    exact ⟨c, hm, hb⟩
  · rintro ⟨c, hm, hb⟩
    exact ⟨(cid, c), ⟨hm, hb⟩, rfl⟩

theorem mem_toRemove_iff (senderId cid : String) (m : Registry) :
    cid ∈ (chatFanoutPass senderId m).toRemove ↔
      ∃ c : Client, (cid, c) ∈ m ∧ removeB senderId (cid, c) = true := by
  rw [chatFanoutPass_eq]
  simp only [List.mem_map, List.mem_filter]
  constructor
  · rintro ⟨⟨a, c⟩, ⟨hm, hb⟩, rfl⟩
    exact ⟨c, hm, hb⟩
  · rintro ⟨c, hm, hb⟩
    exact ⟨(cid, c), ⟨hm, hb⟩, rfl⟩

theorem nodupKeys_eq {m : Registry} (h : (m.map Prod.fst).Nodup)
    {k : String} {c c' : Client} (h1 : (k, c) ∈ m) (h2 : (k, c') ∈ m) :
    c = c' := by
  induction m with
  | nil => cases h1
  | cons p rest ih =>
      obtain ⟨a, b⟩ := p
      simp only [List.map_cons, List.nodup_cons] at h
      rcases List.mem_cons.mp h1 with hh1 | ht1
      · rcases List.mem_cons.mp h2 with hh2 | ht2
        · rw [Prod.mk.injEq] at hh1 hh2
          exact hh1.2.trans hh2.2.symm
        · exfalso
          apply h.1
          rw [Prod.mk.injEq] at hh1
          obtain ⟨hk, _⟩ := hh1
          subst hk
          exact List.mem_map.mpr ⟨(k, c'), ht2, rfl⟩
      · rcases List.mem_cons.mp h2 with hh2 | ht2
        · exfalso
          apply h.1
          rw [Prod.mk.injEq] at hh2
          obtain ⟨hk, _⟩ := hh2
          subst hk
          exact List.mem_map.mpr ⟨(k, c), ht1, rfl⟩
        · exact ih h.2 ht1 ht2

theorem sent_iff_of_nodup (senderId clientId : String) (c : Client)
    (m : Registry) (hmem : (clientId, c) ∈ m)
    (hnodup : (m.map Prod.fst).Nodup) :
    clientId ∈ (chatFanoutPass senderId m).sent ↔
      (clientId ≠ senderId ∧ c.readyState = 1 ∧ "chat" ∈ c.subscriptions ∧
        c.sendFails = false) := by
  rw [mem_sent_iff]
  constructor
  · rintro ⟨c', hm', hb⟩
    have hcc : c' = c := nodupKeys_eq hnodup hm' hmem
    subst hcc
    simp only [sentB, Bool.and_eq_true, bne_iff_ne, ne_eq, beq_iff_eq,
      decide_eq_true_eq, Bool.not_eq_true', Bool.not_eq_eq_eq_not,
      Bool.not_true] at hb
    refine ⟨?_, ?_, ?_, ?_⟩
    · simpa using hb.1.1.1.1
    · exact hb.1.1.1.2
    · exact hb.1.2
    · exact hb.2
  · rintro ⟨h1, h2, h3, h4⟩
    refine ⟨c, hmem, ?_⟩
    simp [sentB, h1, h2, h3, h4, List.length_pos_of_mem h3]

/-- The draw fan-out pass of `handleDrawing`: identical in structure to
the chat pass — skip the sender, require an open connection, require an
explicit subscription, but to the `draw` channel — with the same
catch-and-collect treatment of failed sends. -/
def drawFanoutPass (senderId : String) : Registry → FanoutResult
  | [] => { sent := [], toRemove := [] }
  | (clientId, client) :: rest =>
    let r := drawFanoutPass senderId rest
    if clientId = senderId then r
    else if client.readyState = 1 then
      if 0 < client.subscriptions.length then
        if "draw" ∈ client.subscriptions then
          if client.sendFails then
            if client.readyStateAfterFail ≠ 1 then
              { sent := r.sent, toRemove := clientId :: r.toRemove }
            else r
          else { sent := clientId :: r.sent, toRemove := r.toRemove }
        else r
      else r
    else { sent := r.sent, toRemove := clientId :: r.toRemove }

/-- The condition under which one draw fan-out pass sends the payload to
an entry of the snapshot. -/
def drawSentB (senderId : String) (p : String × Client) : Bool :=
  !(p.1 == senderId) && (p.2.readyState == 1) &&
    decide (0 < p.2.subscriptions.length) &&
    decide ("draw" ∈ p.2.subscriptions) && !p.2.sendFails

/-- The condition under which one draw fan-out pass marks an entry of the
snapshot for removal. -/
def drawRemoveB (senderId : String) (p : String × Client) : Bool :=
  !(p.1 == senderId) &&
    (!(p.2.readyState == 1) ||
      ((p.2.readyState == 1) && decide (0 < p.2.subscriptions.length) &&
        decide ("draw" ∈ p.2.subscriptions) && p.2.sendFails &&
        !(p.2.readyStateAfterFail == 1)))

theorem drawFanoutPass_eq (senderId : String) (m : Registry) :
    drawFanoutPass senderId m =
      { sent := (m.filter (drawSentB senderId)).map Prod.fst,
        toRemove := (m.filter (drawRemoveB senderId)).map Prod.fst } := by
  induction m with
  | nil => rfl
  | cons p rest ih =>
      obtain ⟨cid, c⟩ := p
      by_cases h1 : cid = senderId
      · simp [drawFanoutPass, ih, List.filter_cons, drawSentB, drawRemoveB, h1]
      · by_cases h2 : c.readyState = 1
        · by_cases h3 : 0 < c.subscriptions.length
          · by_cases h4 : "draw" ∈ c.subscriptions
            · by_cases h5 : c.sendFails
              · by_cases h6 : c.readyStateAfterFail = 1
                · simp [drawFanoutPass, ih, List.filter_cons, drawSentB,
                    drawRemoveB, h1, h2, h3, h4, h5, h6]
                · simp [drawFanoutPass, ih, List.filter_cons, drawSentB,
                    drawRemoveB, h1, h2, h3, h4, h5, h6]
              · simp [drawFanoutPass, ih, List.filter_cons, drawSentB,
                  drawRemoveB, h1, h2, h3, h4, h5]
            · simp [drawFanoutPass, ih, List.filter_cons, drawSentB,
                drawRemoveB, h1, h2, h3, h4]
          · simp [drawFanoutPass, ih, List.filter_cons, drawSentB,
              drawRemoveB, h1, h2, h3]
        · simp [drawFanoutPass, ih, List.filter_cons, drawSentB,
            drawRemoveB, h1, h2]

theorem mem_drawSent_iff (senderId cid : String) (m : Registry) :
    cid ∈ (drawFanoutPass senderId m).sent ↔
      ∃ c : Client, (cid, c) ∈ m ∧ drawSentB senderId (cid, c) = true := by
  rw [drawFanoutPass_eq]
  simp only [List.mem_map, List.mem_filter]
  constructor
  · rintro ⟨⟨a, c⟩, ⟨hm, hb⟩, rfl⟩
    exact ⟨c, hm, hb⟩
  · rintro ⟨c, hm, hb⟩
    exact ⟨(cid, c), ⟨hm, hb⟩, rfl⟩

theorem drawSent_iff_of_nodup (senderId clientId : String) (c : Client)
    (m : Registry) (hmem : (clientId, c) ∈ m)
    (hnodup : (m.map Prod.fst).Nodup) :
    clientId ∈ (drawFanoutPass senderId m).sent ↔
      (clientId ≠ senderId ∧ c.readyState = 1 ∧ "draw" ∈ c.subscriptions ∧
        c.sendFails = false) := by
  rw [mem_drawSent_iff]
  constructor
  · rintro ⟨c', hm', hb⟩
    have hcc : c' = c := nodupKeys_eq hnodup hm' hmem
    subst hcc
    simp only [drawSentB, Bool.and_eq_true, bne_iff_ne, ne_eq, beq_iff_eq,
      decide_eq_true_eq, Bool.not_eq_true', Bool.not_eq_eq_eq_not,
      Bool.not_true] at hb
    refine ⟨?_, ?_, ?_, ?_⟩
    · simpa using hb.1.1.1.1
    · exact hb.1.1.1.2
    · exact hb.1.2
    · exact hb.2
  · rintro ⟨h1, h2, h3, h4⟩
    refine ⟨c, hmem, ?_⟩
    simp [drawSentB, h1, h2, h3, h4, List.length_pos_of_mem h3]

/-- C2 (amended): in a chat or draw fan-out pass over a snapshot with
unique ids, a session in the snapshot is sent the payload iff it is not
the originator, its connection is open (`readyState = 1`), it has
subscribed to the published channel (chat, resp. draw), and its send does
not throw; in particular a session with no subscriptions receives nothing
and the originator never receives its own payload on either channel. -/
theorem chat_fanout_delivery (senderId clientId : String) (c : Client)
    (m : Registry) (hmem : (clientId, c) ∈ m)
    (hnodup : (m.map Prod.fst).Nodup) :
    (clientId ∈ (chatFanoutPass senderId m).sent ↔
      (clientId ≠ senderId ∧ c.readyState = 1 ∧ "chat" ∈ c.subscriptions ∧
        c.sendFails = false)) ∧
    (clientId ∈ (drawFanoutPass senderId m).sent ↔
      (clientId ≠ senderId ∧ c.readyState = 1 ∧ "draw" ∈ c.subscriptions ∧
        c.sendFails = false)) :=
  ⟨sent_iff_of_nodup senderId clientId c m hmem hnodup,
   drawSent_iff_of_nodup senderId clientId c m hmem hnodup⟩

/-- A client subscribed to chat whose connection is no longer open
(`readyState = 3`). -/
def deadSubscriber : Client :=
  { id := "b", subscriptions := ["chat"], isAlive := true, readyState := 3,
    sendFails := false, readyStateAfterFail := 3 }

/-- C2 counterexample: a snapshot entry subscribed to chat with a distinct
id from the originator, yet the pass sends it nothing, because its
`readyState` is not 1 — the claim's iff omits the open-connection test. -/
theorem chat_fanout_delivery_cex :
    ("chat" ∈ deadSubscriber.subscriptions ∧ ("b" : String) ≠ "a") ∧
    (chatFanoutPass "a" [("b", deadSubscriber)]).sent = [] := by decide

/-- A subscriber to both the chat and draw channels, for concrete fan-out
evaluations. -/
def liveSubscriber : Client :=
  { id := "b", subscriptions := ["chat", "draw"], isAlive := true,
    readyState := 1, sendFails := false, readyStateAfterFail := 1 }

/-- Concrete instance of `chat_fanout_delivery` on both channels. -/
theorem chat_fanout_delivery_witness :
    ("b" ∈ (chatFanoutPass "a" [("b", liveSubscriber)]).sent ↔
      (("b" : String) ≠ "a" ∧ liveSubscriber.readyState = 1 ∧
        "chat" ∈ liveSubscriber.subscriptions ∧
        liveSubscriber.sendFails = false)) ∧
    ("b" ∈ (drawFanoutPass "a" [("b", liveSubscriber)]).sent ↔
      (("b" : String) ≠ "a" ∧ liveSubscriber.readyState = 1 ∧
        "draw" ∈ liveSubscriber.subscriptions ∧
        liveSubscriber.sendFails = false)) :=
  chat_fanout_delivery "a" "b" liveSubscriber [("b", liveSubscriber)]
    (by decide) (by decide)

/-- The post-pass cleanup: `clientsToRemove.forEach(id => clients.delete(id))`,
run only after the iteration over the snapshot has finished. -/
def applyRemovals (m : Registry) : List String → Registry
  | [] => m
  | id :: rest => applyRemovals (mapDelete m id) rest

/-- One whole deferred broadcast turn: the fan-out pass over the snapshot,
then the removal of the collected ids from the live map. Returns the map
after the removals together with the pass's outcome. -/
def chatBroadcastStep (senderId : String) (m : Registry) :
    Registry × FanoutResult :=
  (applyRemovals m (chatFanoutPass senderId m).toRemove,
    chatFanoutPass senderId m)

theorem mem_mapDelete {α : Type} (m : List (String × α)) (k : String)
    (p : String × α) : p ∈ mapDelete m k ↔ p ∈ m ∧ p.1 ≠ k := by
  simp [mapDelete, List.mem_filter]

theorem mem_applyRemovals (ids : List String) (m : Registry)
    (p : String × Client) :
    p ∈ applyRemovals m ids ↔ p ∈ m ∧ p.1 ∉ ids := by
  induction ids generalizing m with
  | nil => simp [applyRemovals]
  | cons i rest ih =>
      simp only [applyRemovals, ih, mem_mapDelete, List.mem_cons]
      tauto

/-- C4 (amended): over a snapshot with unique ids, a recipient is marked
for removal during the fan-out pass iff it is not the sender and either its
connection was not open at iteration time, or its send threw and its
connection was observed no longer open in the catch block; a caught send
failure never interrupts the pass — every other eligible recipient is still
sent the payload — and the marked recipients are deleted from the live map
only after the full pass completes. -/
theorem fanout_failure_isolation (senderId clientId : String) (c : Client)
    (m : Registry) (hmem : (clientId, c) ∈ m)
    (hnodup : (m.map Prod.fst).Nodup) :
    (clientId ∈ (chatFanoutPass senderId m).toRemove ↔
      (clientId ≠ senderId ∧
        (c.readyState ≠ 1 ∨
          (c.readyState = 1 ∧ "chat" ∈ c.subscriptions ∧ c.sendFails = true ∧
            c.readyStateAfterFail ≠ 1)))) ∧
    (clientId ∈ (chatFanoutPass senderId m).sent ↔
      (clientId ≠ senderId ∧ c.readyState = 1 ∧ "chat" ∈ c.subscriptions ∧
        c.sendFails = false)) ∧
    ((clientId, c) ∈ (chatBroadcastStep senderId m).1 ↔
      ((clientId, c) ∈ m ∧ clientId ∉ (chatFanoutPass senderId m).toRemove)) := by
  refine ⟨?_, sent_iff_of_nodup senderId clientId c m hmem hnodup, ?_⟩
  · rw [mem_toRemove_iff]
    constructor
    · rintro ⟨c', hm', hb⟩
      have hcc : c' = c := nodupKeys_eq hnodup hm' hmem
      subst hcc
      simp only [removeB, Bool.and_eq_true, Bool.or_eq_true, bne_iff_ne,
        ne_eq, beq_iff_eq, decide_eq_true_eq, Bool.not_eq_true',
        Bool.not_eq_eq_eq_not, Bool.not_true] at hb
      obtain ⟨hne, hcase⟩ := hb
      refine ⟨by simpa using hne, ?_⟩
      rcases hcase with hdead | hfail
      · left
        simpa using hdead
      · right
        refine ⟨hfail.1.1.1.1, hfail.1.1.2, hfail.1.2, by simpa using hfail.2⟩
    · rintro ⟨h1, hcase⟩
      refine ⟨c, hmem, ?_⟩
      rcases hcase with hdead | ⟨h2, h3, h4, h5⟩
      · simp [removeB, h1, hdead]
      · simp [removeB, h1, h2, h3, h4, h5, List.length_pos_of_mem h3]
  · exact mem_applyRemovals _ m (clientId, c)

/-- A client subscribed to chat whose send throws while its connection is
still observed open in the catch block. -/
def failingOpenClient : Client :=
  { id := "b", subscriptions := ["chat"], isAlive := true, readyState := 1,
    sendFails := true, readyStateAfterFail := 1 }

/-- C4 counterexample: a send failure to a recipient whose `readyState` is
still 1 in the catch block is caught but the recipient is NOT marked for
removal — it stays in the map after the pass, against the claim that every
send failure marks its recipient for removal. -/
theorem fanout_failure_isolation_cex :
    failingOpenClient.sendFails = true ∧
    (chatFanoutPass "a" [("b", failingOpenClient)]).toRemove = [] ∧
    (chatBroadcastStep "a" [("b", failingOpenClient)]).1 =
      [("b", failingOpenClient)] := by decide

/-- Concrete instance of `fanout_failure_isolation` at a dead subscriber. -/
theorem fanout_failure_isolation_witness :
    ("b" ∈ (chatFanoutPass "a" [("b", deadSubscriber)]).toRemove ↔
      (("b" : String) ≠ "a" ∧
        (deadSubscriber.readyState ≠ 1 ∨
          (deadSubscriber.readyState = 1 ∧
            "chat" ∈ deadSubscriber.subscriptions ∧
            deadSubscriber.sendFails = true ∧
            deadSubscriber.readyStateAfterFail ≠ 1)))) ∧
    ("b" ∈ (chatFanoutPass "a" [("b", deadSubscriber)]).sent ↔
      (("b" : String) ≠ "a" ∧ deadSubscriber.readyState = 1 ∧
        "chat" ∈ deadSubscriber.subscriptions ∧
        deadSubscriber.sendFails = false)) ∧
    (("b", deadSubscriber) ∈ (chatBroadcastStep "a" [("b", deadSubscriber)]).1 ↔
      (("b", deadSubscriber) ∈ [("b", deadSubscriber)] ∧
        "b" ∉ (chatFanoutPass "a" [("b", deadSubscriber)]).toRemove)) :=
  fanout_failure_isolation "a" "b" deadSubscriber [("b", deadSubscriber)]
    (by decide) (by decide)

/-- The fixed channel whitelist of `handleSubscription`. -/
def validChannels : List String := ["chat", "metrics", "draw", "notification"]

/-- The reply `handleSubscription` sends to the requesting client only:
either an error naming the invalid channels, or the confirmation carrying
the resulting channel set. -/
inductive SubReply where
  | invalidNames (invalid : List String)
  | updated (channels : List String)
deriving Repr, DecidableEq

/-- `handleSubscription` on a well-formed `channels` array: filter the
entries not on the whitelist; if any exist, reply with the error naming
them and leave the subscriptions untouched; otherwise replace
`ws.subscriptions` with the new array (an empty array opts out of
everything) and confirm with it. Returns the client's new subscription
list and the reply sent to it. -/
def handleSubscription (subs : List String) (channels : List String) :
    List String × SubReply :=
  let invalidChannels := channels.filter (fun ch => !(validChannels.contains ch))
  if 0 < invalidChannels.length then
    (subs, .invalidNames invalidChannels)
  else
    (channels, .updated channels)

/-- C3: a subscribe request containing any entry outside the whitelist
{chat, metrics, draw, notification} is answered with an error naming
exactly the invalid entries and leaves the subscriptions unchanged; a
request whose entries are all whitelisted (the empty list included)
replaces the subscriptions with the requested set and is confirmed with
that set. -/
theorem subscription_validation (subs channels : List String) :
    ((∃ ch ∈ channels, ch ∉ validChannels) →
      handleSubscription subs channels =
        (subs, .invalidNames
          (channels.filter (fun ch => !(validChannels.contains ch))))) ∧
    ((∀ ch ∈ channels, ch ∈ validChannels) →
      handleSubscription subs channels = (channels, .updated channels)) := by
  constructor
  · rintro ⟨ch, hch, hbad⟩
    have hmem : ch ∈ channels.filter (fun c => !(validChannels.contains c)) := by
      simp [List.mem_filter, hch, hbad]
    unfold handleSubscription
    rw [if_pos (List.length_pos_of_mem hmem)]
  · intro hall
    have hnil : channels.filter (fun c => !(validChannels.contains c)) = [] := by
      rw [List.filter_eq_nil_iff]
      intro ch hch
      simp [hall ch hch]
    unfold handleSubscription
    rw [hnil]
    simp

/-- Concrete instance of `subscription_validation`: a request naming an
unknown channel is rejected without touching the subscriptions, and a
whitelisted request (and the empty request) replaces them. -/
theorem subscription_validation_witness :
    (handleSubscription ["chat"] ["bogus", "chat"] =
      (["chat"], .invalidNames ["bogus"])) ∧
    (handleSubscription ["chat"] ["draw", "metrics"] =
      (["draw", "metrics"], .updated ["draw", "metrics"])) ∧
    (handleSubscription ["chat"] [] = ([], .updated [])) := by
  refine ⟨?_, ?_, ?_⟩
  · have h := (subscription_validation ["chat"] ["bogus", "chat"]).1
      ⟨"bogus", by decide, by decide⟩
    rw [h]
    decide
  · exact (subscription_validation ["chat"] ["draw", "metrics"]).2 (by decide)
  · exact (subscription_validation ["chat"] []).2 (by decide)

/-- `HEARTBEAT_INTERVAL` (ms) from the WebSocket setup module. -/
def HEARTBEAT_INTERVAL : Nat := 30000

/-- `PING_TIMEOUT` (ms) from the WebSocket setup module. -/
def PING_TIMEOUT : Nat := 10000

/-- A runtime timer handle: its identity and the instant it is due to
fire. -/
structure Timer where
  tid : Nat
  fireAt : Nat
deriving Repr, DecidableEq

/-- The per-session heartbeat state: the `ws` flags the handlers read and
write (`isAlive`, `readyState`, the `ws.pingTimeout` handle), the set of
pong-timeout timers actually pending in the runtime, a counter for fresh
timer identities, whether this session's interval timer is still
scheduled, and the instant the connection was terminated, if it was. -/
structure HBState where
  isAlive : Bool
  readyState : Nat
  pingTimeout : Option Timer
  armed : List Timer
  nextTid : Nat
  intervalActive : Bool
  terminatedAt : Option Nat
deriving Repr, DecidableEq

/-- `clearTimeout(ws.pingTimeout)`: disarm the referenced timer, if any. -/
def cancelTimer (armed : List Timer) : Option Timer → List Timer
  | none => armed
  | some tm => armed.filter (fun t => !(t == tm))

/-- `ws.terminate()`: the connection leaves the open state; the first
termination instant is recorded. -/
def terminateAt (s : HBState) (t : Nat) : HBState :=
  { s with readyState := 3,
           terminatedAt := match s.terminatedAt with
             | none => some t
             | some t0 => some t0 }

/-- The heartbeat state of a freshly accepted connection. -/
def hbInit : HBState :=
  { isAlive := true, readyState := 1, pingTimeout := none, armed := [],
    nextTid := 0, intervalActive := true, terminatedAt := none }

/-- One tick of the per-session heartbeat interval at instant `t`: if the
previous probe was never acknowledged (`!ws.isAlive`) the session is
reaped — the interval is cleared, any pending pong timeout is cleared, and
the connection terminated; otherwise `isAlive` is cleared, a probe is
sent, any existing pong timeout is cleared first, and a single fresh pong
timeout due at `t + PING_TIMEOUT` is armed and stored in `ws.pingTimeout`. -/
def hbTick (t : Nat) (s : HBState) : HBState :=
  if !s.intervalActive then s
  else if !s.isAlive then
    terminateAt
      { s with intervalActive := false,
               armed := cancelTimer s.armed s.pingTimeout,
               pingTimeout := none } t
  else
    { s with isAlive := false,
             armed := { tid := s.nextTid, fireAt := t + PING_TIMEOUT } ::
               cancelTimer s.armed s.pingTimeout,
             pingTimeout := some { tid := s.nextTid, fireAt := t + PING_TIMEOUT },
             nextTid := s.nextTid + 1 }

/-- The pong-timeout callback firing: only a still-armed timer can fire,
and on firing it stops being pending; the callback terminates the session
(clearing the interval and nulling `ws.pingTimeout`) only if the probe is
still unacknowledged and the connection still open. -/
def hbFire (tm : Timer) (s : HBState) : HBState :=
  if tm ∈ s.armed then
    let s1 := { s with armed := s.armed.filter (fun t => !(t == tm)) }
    if !s1.isAlive ∧ s1.readyState = 1 then
      terminateAt { s1 with intervalActive := false, pingTimeout := none }
        tm.fireAt
    else s1
  else s

/-- The pong handler: acknowledge the probe and clear the pending pong
timeout. -/
def hbPong (s : HBState) : HBState :=
  { s with isAlive := true,
           armed := cancelTimer s.armed s.pingTimeout,
           pingTimeout := none }

/-- The close handler's per-session cleanup at instant `t`: clear the
interval, clear the pending pong timeout. -/
def hbClose (t : Nat) (s : HBState) : HBState :=
  terminateAt
    { s with intervalActive := false,
             armed := cancelTimer s.armed s.pingTimeout,
             pingTimeout := none } t

/-- The I/O events that drive one session's heartbeat state. -/
inductive HBEvent where
  | tick (t : Nat)
  | pong
  | fire (tm : Timer)
  | close (t : Nat)

/-- Dispatch one heartbeat event. -/
def hbStep (s : HBState) : HBEvent → HBState
  | .tick t => hbTick t s
  | .pong => hbPong s
  | .fire tm => hbFire tm s
  | .close t => hbClose t s

/-- Run a sequence of heartbeat events from the fresh-connection state. -/
def hbRun (evs : List HBEvent) : HBState :=
  evs.foldl hbStep hbInit

/-- The timer discipline the handlers maintain: every pending pong-timeout
timer is the one `ws.pingTimeout` refers to, and there is at most one. -/
def timerInv (s : HBState) : Prop :=
  s.armed = [] ∨ ∃ tm, s.pingTimeout = some tm ∧ s.armed = [tm]

theorem cancelTimer_self (s : HBState) (h : timerInv s) :
    cancelTimer s.armed s.pingTimeout = [] := by
  rcases h with h | ⟨tm, hpt, harm⟩
  · rw [h]
    cases s.pingTimeout <;> rfl
  · rw [hpt, harm]
    simp [cancelTimer]

theorem timerInv_step (s : HBState) (e : HBEvent) (h : timerInv s) :
    timerInv (hbStep s e) := by
  cases e with
  | tick t =>
      by_cases ha : s.intervalActive
      · by_cases hl : s.isAlive
        · right
          refine ⟨{ tid := s.nextTid, fireAt := t + PING_TIMEOUT }, ?_, ?_⟩
          · simp [hbStep, hbTick, ha, hl]
          · simp [hbStep, hbTick, ha, hl, cancelTimer_self s h]
        · left
          simp [hbStep, hbTick, ha, hl, terminateAt, cancelTimer_self s h]
      · simpa [hbStep, hbTick, ha] using h
  | pong =>
      simp only [hbStep, hbPong]
      left
      exact cancelTimer_self s h
  | fire tm =>
      simp only [hbStep, hbFire]
      by_cases hm : tm ∈ s.armed
      · rw [if_pos hm]
        rcases h with harm | ⟨tm', hpt, harm⟩
        · rw [harm] at hm
          cases hm
        · rw [harm] at hm
          have : tm = tm' := by simpa using hm
          subst this
          split
          · left
            simp [terminateAt, harm, cancelTimer]
          · left
            simp [harm, cancelTimer]
      · rw [if_neg hm]
        exact h
  | close t =>
      simp only [hbStep, hbClose]
      left
      simp [terminateAt, cancelTimer_self s h]

theorem timerInv_run (evs : List HBEvent) : timerInv (hbRun evs) := by
  have hgen : ∀ s : HBState, timerInv s → timerInv (evs.foldl hbStep s) := by
    induction evs with
    | nil => intro s hs; simpa using hs
    | cons e rest ih =>
        intro s hs
        exact ih (hbStep s e) (timerInv_step s e hs)
  exact hgen hbInit (Or.inl rfl)

/-- C5: along every sequence of heartbeat events at most one pong-timeout
timer is pending for a session — the tick cancels any existing timeout
before arming a new one — and the pong handler sets `isAlive` and cancels
the pending timeout. -/
theorem heartbeat_single_timer :
    (∀ evs : List HBEvent, (hbRun evs).armed.length ≤ 1) ∧
    (∀ s : HBState, (hbPong s).isAlive = true ∧ (hbPong s).pingTimeout = none ∧
      (hbPong s).armed = cancelTimer s.armed s.pingTimeout) := by
  constructor
  · intro evs
    rcases timerInv_run evs with h | ⟨tm, _, harm⟩
    · simp [h]
    · simp [harm]
  · intro s
    exact ⟨rfl, rfl, rfl⟩

theorem mapDelete_cons {α : Type} (a : String) (b : α)
    (rest : List (String × α)) (i : String) :
    mapDelete ((a, b) :: rest) i =
      if a = i then mapDelete rest i else (a, b) :: mapDelete rest i := by
  by_cases hai : a = i <;> simp [mapDelete, List.filter_cons, hai]

theorem mapLookup_cons {α : Type} (a : String) (b : α)
    (rest : List (String × α)) (j : String) :
    mapLookup ((a, b) :: rest) j =
      if a = j then some b else mapLookup rest j := by
  by_cases haj : a = j <;> simp [mapLookup, List.find?_cons, haj]

theorem mapLookup_mapDelete_self {α : Type} (m : List (String × α))
    (i : String) : mapLookup (mapDelete m i) i = none := by
  induction m with
  | nil => rfl
  | cons p rest ih =>
      obtain ⟨a, b⟩ := p
      rw [mapDelete_cons]
      by_cases hai : a = i
      · rw [if_pos hai]
        exact ih
      · rw [if_neg hai, mapLookup_cons, if_neg hai]
        exact ih

theorem mapLookup_mapDelete_ne {α : Type} (m : List (String × α))
    (i j : String) (h : j ≠ i) :
    mapLookup (mapDelete m i) j = mapLookup m j := by
  induction m with
  | nil => rfl
  | cons p rest ih =>
      obtain ⟨a, b⟩ := p
      rw [mapDelete_cons]
      by_cases hai : a = i
      · have haj : a ≠ j := by
          rw [hai]
          exact Ne.symm h
        rw [if_pos hai, ih, mapLookup_cons, if_neg haj]
      · rw [if_neg hai, mapLookup_cons, mapLookup_cons, ih]

/-- The two shared maps the close handler mutates for a reaped session:
the client map and the per-session heartbeat interval map. -/
structure ServerConn where
  clients : Registry
  heartbeats : List (String × Nat)
deriving Repr, DecidableEq

/-- The close handler's effect on the shared maps after a termination:
delete this session's interval entry and delete the session from the
client map. -/
def closeCleanup (sc : ServerConn) (clientId : String) : ServerConn :=
  { clients := mapDelete sc.clients clientId,
    heartbeats := mapDelete sc.heartbeats clientId }

/-- The heartbeat state of a session right after its last acknowledged
probe: alive, open, no pending pong timeout, interval still scheduled. -/
def ackState (k : Nat) : HBState :=
  { isAlive := true, readyState := 1, pingTimeout := none, armed := [],
    nextTid := k, intervalActive := true, terminatedAt := none }

/-- C6: a session that last acknowledged at `t0` and never acknowledges
again is probed by the next interval tick (at most `HEARTBEAT_INTERVAL`
later) and terminated by the armed pong timeout `PING_TIMEOUT` after the
probe — its interval timer cancelled, no timer left pending, and the
termination instant within `t0 + HEARTBEAT_INTERVAL + PING_TIMEOUT`; the
close-handler cleanup then removes exactly that session from the client
and interval maps, leaving every other session's entries untouched. -/
theorem heartbeat_reap_deadline (t0 d k : Nat) (hd : d ≤ HEARTBEAT_INTERVAL)
    (sc : ServerConn) (cid j : String) (hj : j ≠ cid) :
    ((hbFire { tid := k, fireAt := t0 + d + PING_TIMEOUT }
        (hbTick (t0 + d) (ackState k))).terminatedAt =
      some (t0 + d + PING_TIMEOUT)) ∧
    ((hbFire { tid := k, fireAt := t0 + d + PING_TIMEOUT }
        (hbTick (t0 + d) (ackState k))).intervalActive = false) ∧
    ((hbFire { tid := k, fireAt := t0 + d + PING_TIMEOUT }
        (hbTick (t0 + d) (ackState k))).armed = []) ∧
    (t0 + d + PING_TIMEOUT ≤ t0 + HEARTBEAT_INTERVAL + PING_TIMEOUT) ∧
    (mapLookup (closeCleanup sc cid).clients cid = none) ∧
    (mapLookup (closeCleanup sc cid).heartbeats cid = none) ∧
    (mapLookup (closeCleanup sc cid).clients j = mapLookup sc.clients j) ∧
    (mapLookup (closeCleanup sc cid).heartbeats j = mapLookup sc.heartbeats j) := by
  have hstate : hbTick (t0 + d) (ackState k) =
      { isAlive := false, readyState := 1,
        pingTimeout := some { tid := k, fireAt := t0 + d + PING_TIMEOUT },
        armed := [{ tid := k, fireAt := t0 + d + PING_TIMEOUT }],
        nextTid := k + 1, intervalActive := true, terminatedAt := none } := by
    simp [hbTick, ackState, cancelTimer]
  refine ⟨?_, ?_, ?_, ?_, ?_, ?_, ?_, ?_⟩
  · rw [hstate]
    simp [hbFire, terminateAt]
  · rw [hstate]
    simp [hbFire, terminateAt]
  · rw [hstate]
    simp [hbFire, terminateAt]
  · omega
  · exact mapLookup_mapDelete_self sc.clients cid
  · exact mapLookup_mapDelete_self sc.heartbeats cid
  · exact mapLookup_mapDelete_ne sc.clients cid j hj
  · exact mapLookup_mapDelete_ne sc.heartbeats cid j hj

/-- Concrete instance of `heartbeat_reap_deadline`: last acknowledgment at
`t0 = 0`, next tick a full interval later, two connected sessions; the
silent one is terminated at 40000 ms and the other session's entries
survive. -/
theorem heartbeat_reap_deadline_witness :
    ((hbFire { tid := 0, fireAt := 0 + 30000 + PING_TIMEOUT }
        (hbTick (0 + 30000) (ackState 0))).terminatedAt =
      some (0 + 30000 + PING_TIMEOUT)) ∧
    ((hbFire { tid := 0, fireAt := 0 + 30000 + PING_TIMEOUT }
        (hbTick (0 + 30000) (ackState 0))).intervalActive = false) ∧
    ((hbFire { tid := 0, fireAt := 0 + 30000 + PING_TIMEOUT }
        (hbTick (0 + 30000) (ackState 0))).armed = []) ∧
    (0 + 30000 + PING_TIMEOUT ≤ 0 + HEARTBEAT_INTERVAL + PING_TIMEOUT) ∧
    (mapLookup (closeCleanup
        { clients := [("x", plainClient "x"), ("y", plainClient "y")],
          heartbeats := [("x", 5), ("y", 7)] } "x").clients "x" = none) ∧
    (mapLookup (closeCleanup
        { clients := [("x", plainClient "x"), ("y", plainClient "y")],
          heartbeats := [("x", 5), ("y", 7)] } "x").heartbeats "x" = none) ∧
    (mapLookup (closeCleanup
        { clients := [("x", plainClient "x"), ("y", plainClient "y")],
          heartbeats := [("x", 5), ("y", 7)] } "x").clients "y" =
      mapLookup [("x", plainClient "x"), ("y", plainClient "y")] "y") ∧
    (mapLookup (closeCleanup
        { clients := [("x", plainClient "x"), ("y", plainClient "y")],
          heartbeats := [("x", 5), ("y", 7)] } "x").heartbeats "y" =
      mapLookup [("x", 5), ("y", 7)] "y") :=
  heartbeat_reap_deadline 0 30000 0 (by decide)
    { clients := [("x", plainClient "x"), ("y", plainClient "y")],
      heartbeats := [("x", 5), ("y", 7)] } "x" "y" (by decide)

/-- A JSON field value as the handlers inspect it: a string, a number, a
boolean, or null. -/
inductive JVal where
  | str (s : String)
  | num (n : Int)
  | boolv (b : Bool)
  | nullv
deriving Repr, DecidableEq

/-- JavaScript truthiness of a field value. -/
def jTruthy : JVal → Bool
  | .str s => !(s == "")
  | .num n => !(n == 0)
  | .boolv b => b
  | .nullv => false

/-- The `data` object of an inbound chat frame: the `message` field and
the optional `from` and `user` fields. -/
structure ChatData where
  message : Option JVal
  fromField : Option JVal
  userField : Option JVal
deriving Repr, DecidableEq

/-- JavaScript `a || d` for an optional field against a default: the
field's value if present and truthy, the default otherwise. -/
def jsOrV : Option JVal → JVal → JVal
  | some v, d => if jTruthy v then v else d
  | none, d => d

/-- The fallback display name `` `User_${ws.id.substring(0, 6)}` ``. -/
def defaultUserName (senderId : String) : String :=
  "User_" ++ senderId.take 6

/-- `String.prototype.trim`, modelled over the string's character list:
drop whitespace from both ends. -/
def jsTrim (s : String) : String :=
  ⟨((s.data.dropWhile Char.isWhitespace).reverse.dropWhile
      Char.isWhitespace).reverse⟩

theorem length_eq_zero_iff (s : String) : s.length = 0 ↔ s = "" := by
  obtain ⟨data⟩ := s
  cases data with
  | nil => simp
  | cons c cs =>
      constructor
      · intro h
        simp [String.length] at h
      · intro h
        rw [h]
        rfl

/-- What `handleChatMessage` does with one frame before any fan-out:
either an `error` reply sent to the sender only (the connection stays
open and nothing else happens), or the broadcast payload's identity
fields and message text. -/
inductive ChatOutcome where
  | errorToSender (msg : String)
  | broadcast (fromV userV : JVal) (message : String)
deriving Repr, DecidableEq

/-- The validation and payload construction of `handleChatMessage`: reject
when `data` or `data.message` is absent, falsy or not a string; trim; reject
the empty and the over-500-character message; otherwise build the payload,
defaulting `from` to `data.user` and `user` to `data.from` and both to the
`User_`-prefixed sender id. -/
def handleChatMessage (senderId : String) (data : Option ChatData) :
    ChatOutcome :=
  match data with
  | none => .errorToSender "Invalid chat message format"
  | some d =>
    match d.message with
    | none => .errorToSender "Invalid chat message format"
    | some m =>
      if !jTruthy m then .errorToSender "Invalid chat message format"
      else
        match m with
        | .str s =>
          let messageText := jsTrim s
          if messageText.length = 0 then
            .errorToSender "Message cannot be empty"
          else if 500 < messageText.length then
            .errorToSender "Message too long. Maximum 500 characters."
          else
            .broadcast
              (jsOrV d.fromField
                (jsOrV d.userField (.str (defaultUserName senderId))))
              (jsOrV d.userField
                (jsOrV d.fromField (.str (defaultUserName senderId))))
              messageText
        | _ => .errorToSender "Invalid chat message format"

/-- The whole effect of one inbound chat frame on the client map: the
error path replies to the sender and returns before the broadcast is
scheduled; the success path runs the deferred fan-out pass with its
post-pass removals. -/
def chatFrameStep (senderId : String) (data : Option ChatData)
    (m : Registry) : Registry × ChatOutcome :=
  match handleChatMessage senderId data with
  | .errorToSender msg => (m, .errorToSender msg)
  | .broadcast f u txt => ((chatBroadcastStep senderId m).1, .broadcast f u txt)

/-- The claim's rejection condition, stated from the spec's words:
`data.message` is missing, not a string, empty after trimming, or longer
than 500 characters after trimming. -/
def specInvalidChat (data : Option ChatData) : Bool :=
  match data with
  | none => true
  | some d =>
    match d.message with
    | none => true
    | some (.str s) => (jsTrim s == "") || decide (500 < (jsTrim s).length)
    | some _ => true

theorem handleChatMessage_error_iff (senderId : String)
    (data : Option ChatData) :
    (∃ msg, handleChatMessage senderId data = .errorToSender msg) ↔
      specInvalidChat data = true := by
  match data with
  | none => simp [handleChatMessage, specInvalidChat]
  | some d =>
    match hm : d.message with
    | none => simp [handleChatMessage, specInvalidChat, hm]
    | some (.num n) =>
        simp [handleChatMessage, specInvalidChat, hm, ite_self]
    | some (.boolv b) =>
        cases b <;>
          simp [handleChatMessage, specInvalidChat, hm, jTruthy, ite_self]
    | some .nullv =>
        simp [handleChatMessage, specInvalidChat, hm, jTruthy]
    | some (.str s) =>
        by_cases hs : s = ""
        · subst hs
          simp [handleChatMessage, specInvalidChat, hm, jTruthy, jsTrim]
        · by_cases hemp : jsTrim s = ""
          · simp [handleChatMessage, specInvalidChat, hm, jTruthy, hs, hemp,
              length_eq_zero_iff]
          · by_cases hlen : 500 < (jsTrim s).length
            · simp [handleChatMessage, specInvalidChat, hm, jTruthy, hs,
                hemp, hlen, length_eq_zero_iff]
            · simp [handleChatMessage, specInvalidChat, hm, jTruthy, hs,
                hemp, hlen, length_eq_zero_iff]

/-- C7: an inbound chat frame whose `data.message` is missing, not a
string, empty after trimming, or longer than 500 characters after
trimming is answered with an `error` to the sender only, no broadcast
happens and the client map is left exactly as it was; any other chat
frame produces a broadcast and no error, and the fan-out never sends the
payload back to the sender. -/
theorem chat_invalid_frame_handling (senderId : String)
    (data : Option ChatData) (m : Registry) :
    (specInvalidChat data = true →
      ∃ msg, chatFrameStep senderId data m = (m, .errorToSender msg)) ∧
    (specInvalidChat data = false →
      (∃ f u txt, (chatFrameStep senderId data m).2 = .broadcast f u txt) ∧
      senderId ∉ (chatFanoutPass senderId m).sent) := by
  constructor
  · intro hbad
    obtain ⟨msg, hmsg⟩ :=
      (handleChatMessage_error_iff senderId data).mpr hbad
    exact ⟨msg, by simp [chatFrameStep, hmsg]⟩
  · intro hok
    have hnoerr : ¬ ∃ msg, handleChatMessage senderId data = .errorToSender msg := by
      rw [handleChatMessage_error_iff, hok]
      simp
    constructor
    · match hout : handleChatMessage senderId data with
      | .errorToSender msg => exact absurd ⟨msg, hout⟩ hnoerr
      | .broadcast f u txt =>
          exact ⟨f, u, txt, by simp [chatFrameStep, hout]⟩
    · intro hsent
      rw [mem_sent_iff] at hsent
      obtain ⟨c, _, hb⟩ := hsent
      simp [sentB] at hb

/-- A frame whose message is an empty string, and one whose message is a
valid short string. -/
def badChatData : ChatData :=
  { message := some (.str "   "), fromField := none, userField := none }

/-- A well-formed chat frame for concrete evaluations. -/
def goodChatData : ChatData :=
  { message := some (.str "hello"), fromField := none, userField := none }

/-- Concrete instance of `chat_invalid_frame_handling`: a whitespace-only
message is rejected with an error and the map untouched; a valid message
broadcasts and the sender is never among the recipients. -/
theorem chat_invalid_frame_handling_witness :
    (∃ msg, chatFrameStep "abc" (some badChatData) [] =
      ([], .errorToSender msg)) ∧
    ((∃ f u txt, (chatFrameStep "abc" (some goodChatData) []).2 =
        .broadcast f u txt) ∧
      "abc" ∉ (chatFanoutPass "abc" []).sent) :=
  ⟨(chat_invalid_frame_handling "abc" (some badChatData) []).1 (by decide),
   (chat_invalid_frame_handling "abc" (some goodChatData) []).2 (by decide)⟩

/-- The server stats the metrics paths touch: the sliding window of
request timestamps (ms) and the derived requests-per-second figure. -/
structure ServerStats where
  requestTimestamps : List Int
  requestsPerSecond : Nat
deriving Repr, DecidableEq

/-- The body of the 1-second metrics interval: keep only the timestamps
from the last second (`now - timestamp < 1000`) and recompute
`requestsPerSecond` as the length of what is kept. -/
def metricsTick (now : Int) (stats : ServerStats) : ServerStats :=
  let kept := stats.requestTimestamps.filter (fun ts => now - ts < 1000)
  { requestTimestamps := kept, requestsPerSecond := kept.length }

/-- The request path's recording: push the current timestamp onto the
window. -/
def recordRequest (now : Int) (stats : ServerStats) : ServerStats :=
  { stats with requestTimestamps := stats.requestTimestamps ++ [now] }

/-- C8: the periodic eviction retains exactly the timestamps within the
last 1000 ms and sets `requestsPerSecond` to the length of the retained
window; in particular a window recorded at `t - 1500`, `t - 800` and
`t - 100` evicted at `t` yields `requestsPerSecond = 2`. -/
theorem metrics_window_eviction (now : Int) (stats : ServerStats) :
    (∀ ts : Int, ts ∈ (metricsTick now stats).requestTimestamps ↔
      (ts ∈ stats.requestTimestamps ∧ now - ts < 1000)) ∧
    ((metricsTick now stats).requestsPerSecond =
      (metricsTick now stats).requestTimestamps.length) ∧
    (∀ t : Int,
      (metricsTick t (recordRequest (t - 100) (recordRequest (t - 800)
        (recordRequest (t - 1500)
          { requestTimestamps := [], requestsPerSecond := 0 })))).requestsPerSecond
        = 2) := by
  refine ⟨?_, rfl, ?_⟩
  · intro ts
    simp [metricsTick, List.mem_filter]
  · intro t
    have h1 : t - (t - 1500) = 1500 := by ring
    have h2 : t - (t - 800) = 800 := by ring
    have h3 : t - (t - 100) = 100 := by ring
    simp [metricsTick, recordRequest, List.filter, h1, h2, h3]

/-- C9: registry removal is idempotent — deleting the same id twice leaves
the same map as deleting it once — and deleting an id that is absent from
the map changes nothing. -/
theorem registry_remove_idempotent (m : Registry) (id : String) :
    (mapDelete (mapDelete m id) id = mapDelete m id) ∧
    (mapLookup m id = none → mapDelete m id = m) := by
  constructor
  · induction m with
    | nil => rfl
    | cons p rest ih =>
        obtain ⟨a, b⟩ := p
        rw [mapDelete_cons]
        by_cases hai : a = id
        · rw [if_pos hai]
          exact ih
        · rw [if_neg hai, mapDelete_cons, if_neg hai, ih]
  · induction m with
    | nil => intro _; rfl
    | cons p rest ih =>
        obtain ⟨a, b⟩ := p
        rw [mapLookup_cons, mapDelete_cons]
        by_cases hai : a = id
        · rw [if_pos hai, if_pos hai]
          intro h
          cases h
        · rw [if_neg hai, if_neg hai]
          intro h
          rw [ih h]

/-- Concrete instance of `registry_remove_idempotent`: removing an absent
id is a no-op. -/
theorem registry_remove_idempotent_witness :
    (mapDelete (mapDelete [("a", plainClient "a")] "z") "z" =
      mapDelete [("a", plainClient "a")] "z") ∧
    mapDelete [("a", plainClient "a")] "z" = [("a", plainClient "a")] :=
  ⟨(registry_remove_idempotent [("a", plainClient "a")] "z").1,
   (registry_remove_idempotent [("a", plainClient "a")] "z").2 (by decide)⟩

/-- Whether an optional frame field is present with a truthy value — the
only way a field counts for a JavaScript `||` chain. -/
def suppliedTruthy : Option JVal → Bool
  | some v => jTruthy v
  | none => false

theorem jsOrV_falsy (o : Option JVal) (d : JVal)
    (h : suppliedTruthy o = false) : jsOrV o d = d := by
  cases o with
  | none => rfl
  | some v =>
      simp only [suppliedTruthy] at h
      simp [jsOrV, h]

theorem jsOrV_truthy (v d : JVal) (h : jTruthy v = true) :
    jsOrV (some v) d = v := by
  simp [jsOrV, h]

/-- C10 (amended): for an accepted chat frame, when neither `data.from`
nor `data.user` is supplied with a truthy value (in particular when both
are absent) both identity fields default to `"User_"` followed by the
first six characters of the sender's id; when exactly one of the two is
supplied with a truthy value, that value is used for both fields. -/
theorem chat_identity_defaulting (senderId : String) (d : ChatData)
    (s : String) (hm : d.message = some (.str s)) (hne : jsTrim s ≠ "")
    (hlen : (jsTrim s).length ≤ 500) :
    (suppliedTruthy d.fromField = false → suppliedTruthy d.userField = false →
      handleChatMessage senderId (some d) =
        .broadcast (.str (defaultUserName senderId))
          (.str (defaultUserName senderId)) (jsTrim s)) ∧
    (∀ v : JVal, d.fromField = some v → jTruthy v = true →
      suppliedTruthy d.userField = false →
      handleChatMessage senderId (some d) = .broadcast v v (jsTrim s)) ∧
    (∀ v : JVal, d.userField = some v → jTruthy v = true →
      suppliedTruthy d.fromField = false →
      handleChatMessage senderId (some d) = .broadcast v v (jsTrim s)) := by
  have hs : s ≠ "" := by
    intro h
    subst h
    exact hne rfl
  have hlen0 : ¬ (jsTrim s).length = 0 := fun h =>
    hne ((length_eq_zero_iff (jsTrim s)).mp h)
  have hlt : ¬ 500 < (jsTrim s).length := Nat.not_lt.mpr hlen
  have hbr : handleChatMessage senderId (some d) =
      .broadcast
        (jsOrV d.fromField (jsOrV d.userField (.str (defaultUserName senderId))))
        (jsOrV d.userField (jsOrV d.fromField (.str (defaultUserName senderId))))
        (jsTrim s) := by
    simp [handleChatMessage, hm, jTruthy, hs, hlen0, hlt]
  refine ⟨?_, ?_, ?_⟩
  · intro hf hu
    rw [hbr, jsOrV_falsy d.fromField _ hf, jsOrV_falsy d.userField _ hu,
      jsOrV_falsy d.userField _ hu, jsOrV_falsy d.fromField _ hf]
  · intro v hv htr hu
    rw [hbr, hv]
    simp only [jsOrV_falsy _ _ hu, jsOrV_truthy _ _ htr]
  · intro v hv htr hf
    rw [hbr, hv]
    simp only [jsOrV_falsy _ _ hf, jsOrV_truthy _ _ htr]

/-- A frame that supplies `from` as the empty string and omits `user`. -/
def emptyFromData : ChatData :=
  { message := some (.str "hi"), fromField := some (.str ""),
    userField := none }

/-- C10 counterexample: with `from` supplied as `""` and `user` absent
(exactly one of the two supplied), the payload does not use the supplied
value — the falsy `""` is skipped and both fields get the `User_` default,
against the claim that the one supplied value is used for both fields. -/
theorem chat_identity_defaulting_cex :
    emptyFromData.fromField = some (.str "") ∧
    handleChatMessage "abcdef12" (some emptyFromData) =
      .broadcast (.str "User_abcdef") (.str "User_abcdef") "hi" := by decide

/-- A frame supplying only a truthy `from`. -/
def fromOnlyData : ChatData :=
  { message := some (.str "hey"), fromField := some (.str "alice"),
    userField := none }

/-- Concrete instance of `chat_identity_defaulting`: a frame supplying
only `from: "alice"` broadcasts with both identity fields `"alice"`. -/
theorem chat_identity_defaulting_witness :
    handleChatMessage "abcdef12" (some fromOnlyData) =
      .broadcast (.str "alice") (.str "alice") (jsTrim "hey") :=
  (chat_identity_defaulting "abcdef12" fromOnlyData "hey" rfl (by decide)
    (by decide)).2.1 (.str "alice") rfl (by decide) rfl

end WSProof
